import Mathlib

set_option maxRecDepth 100000

/-!
Verification of the source-code patch engine of `usa-tax-calculator-2025`:
shallow embedding of `src/update_diagnostic_phases.py` and
`src/scripts/fix-state-brackets.py` over `List Char` texts, followed by
theorems about the embedded operations.

Python strings are modelled as `List Char`; the only line terminator occurring
in the modelled texts is a newline character, so `str.splitlines(True)` is
modelled for newline-separated text.  Regular-expression fragments used by the
scripts are concrete enough to be modelled as deterministic scanners:
`\w+` / `[A-Z]+` / `\d+` / `\s*` runs are maximal and each is followed by a
character outside its class in every pattern below, so greedy matching with
backtracking coincides with maximal-run matching.
-/

/-- Character constant: the single-quote character (codepoint 39). -/
def squote : Char := Char.ofNat 39

/-- Character constant: the opening curly brace (codepoint 123). -/
def lbrace : Char := Char.ofNat 123

/-- Character constant: the closing curly brace (codepoint 125). -/
def rbrace : Char := Char.ofNat 125

/-- Matches a literal pattern at the head of a character list; on success
returns the remainder after the pattern. -/
def matchPre : List Char → List Char → Option (List Char)
  | [], l => some l
  | _ :: _, [] => none
  | p :: ps, c :: cs => if p == c then matchPre ps cs else none

/-- `startsWithL pat l` holds when `pat` is a prefix of `l`. -/
def startsWithL (pat l : List Char) : Bool :=
  (matchPre pat l).isSome

/-- `endsWithL pat l` models Python `l.endswith(pat)`. -/
def endsWithL (pat l : List Char) : Bool :=
  startsWithL pat.reverse l.reverse

/-- `containsSub pat l` models Python `pat in l` (substring containment). -/
def containsSub (pat : List Char) : List Char → Bool
  | [] => (matchPre pat []).isSome
  | c :: cs => (matchPre pat (c :: cs)).isSome || containsSub pat cs

/-- `containsChar c l` models Python `c in l` for a one-character needle. -/
def containsChar (c : Char) (l : List Char) : Bool :=
  l.any (fun x => x == c)

/-- Python whitespace class (`\s`, and the default `str.rstrip` set):
space, tab, newline, carriage return, vertical tab, form feed. -/
def pySpace (c : Char) : Bool :=
  c == ' ' || c == '\t' || c == '\n' || c == '\r' ||
  c == Char.ofNat 11 || c == Char.ofNat 12

/-- Models Python `str.rstrip()` (strip trailing whitespace). -/
def rstripPy (l : List Char) : List Char :=
  (l.reverse.dropWhile pySpace).reverse

/-- Drops a maximal run of whitespace, modelling the regex fragment `\s*`
when the following pattern piece starts with a non-whitespace character. -/
def dropSpacesL (l : List Char) : List Char :=
  l.dropWhile pySpace

/-- Python regex word character `\w` restricted to ASCII, which covers every
text these scripts process: letters, digits, underscore. -/
def isWordChar (c : Char) : Bool :=
  c.isAlpha || c.isDigit || c == '_'

/-- The regex class `[A-Z]`. -/
def isUpperAZ (c : Char) : Bool :=
  decide ('A' ≤ c ∧ c ≤ 'Z')

/-- Auxiliary scan for `rfindIdx`, carrying the index of the head. -/
def rfindIdxAux (c : Char) : Nat → List Char → Option Nat
  | _, [] => none
  | i, x :: xs =>
    match rfindIdxAux c (i + 1) xs with
    | some j => some j
    | none => if x == c then some i else none

/-- Models Python `str.rfind(c)`: index of the last occurrence of `c`,
`none` when absent (Python returns `-1`). -/
def rfindIdx (c : Char) (l : List Char) : Option Nat :=
  rfindIdxAux c 0 l

/-- Models Python `str.splitlines(True)` for newline-separated text: splits
after every newline character, keeping the newline on each line. -/
def splitKeep : List Char → List (List Char)
  | [] => []
  | c :: cs =>
    if c == '\n' then [c] :: splitKeep cs
    else
      match splitKeep cs with
      | [] => [[c]]
      | l :: ls => (c :: l) :: ls

/-! ## Embedding of `src/update_diagnostic_phases.py` -/

/-- `PHASE_MAPPINGS` (source lines 9-28): ordered table of inclusive line
ranges with their phase labels. -/
def PHASE_MAPPINGS : List (Nat × Nat × List Char) :=
  [(64, 76, "self-employment".toList),
   (87, 104, "qbi".toList),
   (109, 127, "nol".toList),
   (132, 200, "income-tax".toList),
   (253, 410, "agi".toList),
   (600, 700, "deductions".toList),
   (750, 850, "additional-taxes".toList),
   (1000, 1100, "credits".toList),
   (1100, 1150, "input-validation".toList)]

/-- First-match lookup over a range table (the loop body of
`get_phase_for_line`, source lines 32-35). -/
def phaseLookup : List (Nat × Nat × List Char) → Nat → Option (List Char)
  | [], _ => none
  | (s, e, p) :: rest, n =>
    if s ≤ n ∧ n ≤ e then some p else phaseLookup rest n

/-- `get_phase_for_line` (source lines 30-35). -/
def get_phase_for_line (line_num : Nat) : Option (List Char) :=
  phaseLookup PHASE_MAPPINGS line_num

/-- The marker substring `phase:` tested by `add_phase_to_diagnostic`
(source line 42). -/
def phaseLit : List Char := "phase:".toList

/-- Anchored match for the regex `'[A-Z]+-[EW]-\d+'` (source line 65) at the
head of `l`; returns the length of the match.  The `[A-Z]+` and `\d+` runs
are maximal since the following pattern characters (`-` and the quote) are
outside the respective classes. -/
def matchCodeLen (l : List Char) : Option Nat :=
  match l with
  | [] => none
  | c0 :: r1 =>
    if c0 == squote then
      let u := r1.takeWhile isUpperAZ
      let r2 := r1.dropWhile isUpperAZ
      if u.isEmpty then none
      else
        match r2 with
        | '-' :: c1 :: '-' :: r3 =>
          if c1 == 'E' || c1 == 'W' then
            let d := r3.takeWhile Char.isDigit
            let r4 := r3.dropWhile Char.isDigit
            if d.isEmpty then none
            else
              match r4 with
              | c2 :: _ => if c2 == squote then some (u.length + d.length + 5) else none
              | [] => none
          else none
        | _ => none
    else none

/-- Scan for `findCodeEnd`, carrying the absolute index. -/
def findCodeEndAux : Nat → List Char → Option Nat
  | _, [] => none
  | i, c :: cs =>
    match matchCodeLen (c :: cs) with
    | some n => some (i + n)
    | none => findCodeEndAux (i + 1) cs

/-- Models `re.search(r"'[A-Z]+-[EW]-\d+'", full_call)` followed by
`code_match.end()` (source lines 65-67): end offset of the leftmost match. -/
def findCodeEnd (l : List Char) : Option Nat :=
  findCodeEndAux 0 l

/-- The inserted field text `, phase: '<phase>'` (source lines 54 and 62). -/
def insField (phase : List Char) : List Char :=
  ", phase: \x27".toList ++ phase ++ [squote]

/-- The inserted options object `, { phase: '<phase>' }` (source line 68). -/
def insObj (phase : List Char) : List Char :=
  ", \x7b phase: \x27".toList ++ phase ++ "\x27 \x7d".toList

/-- `add_phase_to_diagnostic` (source lines 37-74).  Python's
`str.rfind` returns `-1` when the character is absent, and
`s[:-1] + ins + s[-1:]` then splices before the final character; the
`getD (length - 1)` default reproduces exactly that splice. -/
def add_phase_to_diagnostic (full_call : List Char) (line_num : Nat) : List Char :=
  if containsSub phaseLit full_call then full_call
  else
    match get_phase_for_line line_num with
    | none => full_call
    | some phase =>
      if endsWithL "\x7d);".toList (rstripPy full_call) then
        let p := (rfindIdx rbrace full_call).getD (full_call.length - 1)
        full_call.take p ++ insField phase ++ full_call.drop p
      else if endsWithL ");".toList (rstripPy full_call) then
        if containsChar lbrace full_call then
          let p := (rfindIdx rbrace full_call).getD (full_call.length - 1)
          full_call.take p ++ insField phase ++ full_call.drop p
        else
          match findCodeEnd full_call with
          | some e => full_call.take e ++ insObj phase ++ full_call.drop e
          | none => full_call
      else full_call

/-- The trigger test of `main` (source line 89):
`re.search(r'pushWarning\(|pushError\(', line)`. -/
def isTrigger (line : List Char) : Bool :=
  containsSub "pushWarning(".toList line || containsSub "pushError(".toList line

/-- The statement-terminator token sequence tested on accumulated lines
(source line 96). -/
def termLit : List Char := ");".toList

/-- The scanning loop of `main` (source lines 87-111), producing
`updated_lines`.  Arguments: current 1-based line number `i`, the
`in_push_call` flag `b`, the accumulated `push_call_lines` `acc`, the
`push_call_start_line` `s`, and the remaining input lines.  At end of input
any still-open span is not flushed, exactly as in the source, where
`push_call_lines` is simply abandoned when the loop ends. -/
def mainLoop (i : Nat) (b : Bool) (acc : List (List Char)) (s : Nat) :
    List (List Char) → List (List Char)
  | [] => []
  | line :: rest =>
    if isTrigger line then mainLoop (i + 1) true [line] i rest
    else if b then
      if containsSub termLit line then
        splitKeep (add_phase_to_diagnostic (List.flatten (acc ++ [line])) s) ++
          mainLoop (i + 1) false [] s rest
      else mainLoop (i + 1) true (acc ++ [line]) s rest
    else line :: mainLoop (i + 1) false acc s rest

/-- `main`'s transformation of the file's lines (source lines 82-111). -/
def processLines (lines : List (List Char)) : List (List Char) :=
  mainLoop 1 false [] 0 lines

/-- The span-extraction skeleton of `main`'s loop (source lines 87-99),
yielding each complete call span with its start line, without rewriting. -/
def extractLoop (i : Nat) (b : Bool) (acc : List (List Char)) (s : Nat) :
    List (List Char) → List (Nat × List (List Char))
  | [] => []
  | line :: rest =>
    if isTrigger line then extractLoop (i + 1) true [line] i rest
    else if b then
      if containsSub termLit line then
        (s, acc ++ [line]) :: extractLoop (i + 1) false [] s rest
      else extractLoop (i + 1) true (acc ++ [line]) s rest
    else extractLoop (i + 1) false acc s rest

/-- All complete call spans of a file, with their start line numbers. -/
def extractSpans (lines : List (List Char)) : List (Nat × List (List Char)) :=
  extractLoop 1 false [] 0 lines

/-- One run of `main` over a file's lines (source lines 76-115): the
transformed lines, paired with whether the file is written back.  The source
opens the file for writing unconditionally (lines 113-115), so the flag is
always `true`. -/
def diagnosticRun (lines : List (List Char)) : List (List Char) × Bool :=
  (processLines lines, true)

/-! ## Embedding of `src/scripts/fix-state-brackets.py` -/

/-- `states_to_fix` (source line 10). -/
def states_to_fix : List (List Char) :=
  ["DE".toList, "HI".toList, "ID".toList, "KS".toList, "MS".toList,
   "MT".toList, "ND".toList, "OK".toList, "RI".toList, "UT".toList,
   "VT".toList, "WV".toList]

/-- The per-state file path (source line 15), relative to the project root. -/
def statePath (st : List Char) : List Char :=
  "src/engine/states/".toList ++ st ++ "/2025/compute".toList ++ st ++ "2025.ts".toList

/-- The literal head of both search patterns (source lines 25 and 31):
`calculateTaxFromBrackets\(`. -/
def callLit : List Char := "calculateTaxFromBrackets(".toList

/-- The literal tail of both search patterns:
`<STATE>_RULES_2025\.brackets\[filingStatus\]\)`. -/
def tableLit (st : List Char) : List Char :=
  st ++ "_RULES_2025.brackets[filingStatus])".toList

/-- Acceptance test of the strict capture group `(\w+Taxable(?:Income)?)`
applied to a maximal word run that must be followed by a comma: the run
decomposes as a nonempty word prefix followed by `Taxable`, optionally
followed by `Income`. -/
def strictSuffixOk (run : List Char) : Bool :=
  (endsWithL "Taxable".toList run && decide (7 < run.length)) ||
  (endsWithL "TaxableIncome".toList run && decide (13 < run.length))

/-- Matches the argument part of the search patterns after `callLit`:
the captured identifier run, a comma, `\s*`, then `tableLit`.  `run` is the
maximal `\w` run after the opening parenthesis and `rest` what follows it;
since `,` is not a word character, the capture group must consume the whole
run for the following comma to match. -/
def matchArgs (strict : Bool) (st : List Char) (run rest : List Char) :
    Option (List Char) :=
  if run.isEmpty then none
  else if strict && ! strictSuffixOk run then none
  else
    match rest with
    | [] => none
    | c :: r3 =>
      if c == ',' then
        match matchPre (tableLit st) (dropSpacesL r3) with
        | some _ => some run
        | none => none
      else none

/-- Anchored match, at the head of `l`, of the search pattern of source
line 25 (`strict = true`, identifier constrained to end in `Taxable` or
`TaxableIncome`) or line 31 (`strict = false`, any identifier).  Returns the
captured identifier. -/
def matchCallAt (strict : Bool) (st : List Char) (l : List Char) :
    Option (List Char) :=
  match matchPre callLit l with
  | none => none
  | some r1 => matchArgs strict st (r1.takeWhile isWordChar) (r1.dropWhile isWordChar)

/-- `re.search` for the call pattern: leftmost match wins (source lines 27
and 32). -/
def searchCall (strict : Bool) (st : List Char) : List Char → Option (List Char)
  | [] => none
  | c :: cs =>
    match matchCallAt strict st (c :: cs) with
    | some v => some v
    | none => searchCall strict st cs

/-- The explicit fallback chain of source lines 27-32: try the strict
pattern first; only if it finds no match, retry once with the loose
pattern. -/
def findBinding (st content : List Char) : Option (List Char) :=
  match searchCall true st content with
  | some v => some v
  | none => searchCall false st content

/-- First literal piece of `old_pattern` (source line 42):
`const taxBeforeCredits = calculateTaxFromBrackets\(<var>,` — the captured
variable consists of word characters only, so it is a regex literal. -/
def oldLit1 (var : List Char) : List Char :=
  "const taxBeforeCredits = calculateTaxFromBrackets(".toList ++ var ++ [',']

/-- Second literal piece of `old_pattern` (source line 42), after `\s*`:
`<STATE>_RULES_2025\.brackets\[filingStatus\]\);`. -/
def oldLit2 (st : List Char) : List Char :=
  st ++ "_RULES_2025.brackets[filingStatus]);".toList

/-- The replacement text (source lines 38-39): an intermediate
`const fullBrackets = ...;` statement, a newline, two spaces of indentation,
and the call rewritten to use `fullBrackets` — with no trailing semicolon,
exactly as in the source's f-string. -/
def replacementText (var st : List Char) : List Char :=
  "const fullBrackets = convertToFullBrackets(".toList ++ st ++
    "_RULES_2025.brackets[filingStatus]);\n  const taxBeforeCredits = calculateTaxFromBrackets(".toList ++
    var ++ ", fullBrackets)".toList

/-- Anchored match of `old_pattern` at the head of `l`; on success returns
the remainder after the matched text.  `\s*` is maximal since `oldLit2`
starts with a non-whitespace character. -/
def matchOldAt (var st : List Char) (l : List Char) : Option (List Char) :=
  match matchPre (oldLit1 var) l with
  | none => none
  | some r1 => matchPre (oldLit2 st) (dropSpacesL r1)

/-- `re.sub(old_pattern, replacement, content)` (source line 44): replace
every non-overlapping leftmost occurrence.  The first argument is fuel; each
step consumes at least one input character (a successful `matchOldAt`
consumes at least `oldLit1`, which is nonempty), so fuel equal to the input
length always suffices and the fuel-exhausted branch returns the rest
unchanged. -/
def replaceOldAux (var st : List Char) : Nat → List Char → List Char
  | _, [] => []
  | 0, l => l
  | fuel + 1, c :: cs =>
    match matchOldAt var st (c :: cs) with
    | some r => replacementText var st ++ replaceOldAux var st fuel r
    | none => c :: replaceOldAux var st fuel cs

/-- `new_content = re.sub(old_pattern, replacement, content)`. -/
def replaceAllOld (var st content : List Char) : List Char :=
  replaceOldAux var st content.length content

/-- Per-unit outcome classification of the batch driver (source lines
17-53): `patched` = "Fixed" with write-back, `noChanges` = "No changes made
(already fixed?)", `notFound` = "Could not find bracket calculation",
`missingFile` = "File not found". -/
inductive FixOutcome where
  | patched
  | noChanges
  | notFound
  | missingFile
deriving DecidableEq

/-- Processing of one existing file's content (source lines 24-53): search
with the fallback chain; on a match substitute `old_pattern`; write back
(outcome `patched`) only when the content actually changed. -/
def fixFile (st content : List Char) : FixOutcome × List Char :=
  match findBinding st content with
  | none => (FixOutcome.notFound, content)
  | some var =>
    if replaceAllOld var st content = content then (FixOutcome.noChanges, content)
    else (FixOutcome.patched, replaceAllOld var st content)

/-- Pointwise update of the modelled file store at one path. -/
def updateFs (fs : List Char → Option (List Char)) (p v : List Char) :
    List Char → Option (List Char) :=
  fun q => if q = p then some v else fs q

/-- The batch loop over states (source lines 14-53) against a file store
mapping paths to contents: a missing file is reported and skipped, a patched
file is written back to its own path, and every state is processed. -/
def runBatchAux (fs : List Char → Option (List Char)) :
    List (List Char) → List (List Char × FixOutcome)
  | [] => []
  | st :: rest =>
    match fs (statePath st) with
    | none => (st, FixOutcome.missingFile) :: runBatchAux fs rest
    | some content =>
      match fixFile st content with
      | (FixOutcome.patched, nc) =>
        (st, FixOutcome.patched) :: runBatchAux (updateFs fs (statePath st) nc) rest
      | (o, _) => (st, o) :: runBatchAux fs rest

/-- One full run of the batch driver. -/
def runBatch (fs : List Char → Option (List Char)) : List (List Char × FixOutcome) :=
  runBatchAux fs states_to_fix

/-! ## Concrete texts used in the theorems -/

/-- A canonical state-computation line containing the exact prior form, as
described by the specification's structural-substitution scenario. -/
def c1input : List Char :=
  "  const taxBeforeCredits = calculateTaxFromBrackets(stateTaxable, DE_RULES_2025.brackets[filingStatus]);\n".toList

/-- The text the rewrite actually produces from `c1input`: the intermediate
statement, then the call using `fullBrackets` with no trailing semicolon. -/
def c1expected : List Char :=
  "  const fullBrackets = convertToFullBrackets(DE_RULES_2025.brackets[filingStatus]);\n  const taxBeforeCredits = calculateTaxFromBrackets(stateTaxable, fullBrackets)\n".toList

/-- A file with two occurrences of the prior form under distinct bindings:
the first satisfies the strict identifier constraint, the second only the
loose one. -/
def c3input : List Char :=
  ("const taxBeforeCredits = calculateTaxFromBrackets(aTaxable, DE_RULES_2025.brackets[filingStatus]);\n" ++
   "const taxBeforeCredits = calculateTaxFromBrackets(b, DE_RULES_2025.brackets[filingStatus]);\n").toList

/-- A truncated file: a diagnostic call is opened and never terminated. -/
def c4input : List (List Char) := ["pushWarning(x\n".toList]

/-- Content matched by the strict pattern. -/
def c6strict : List Char :=
  "const taxBeforeCredits = calculateTaxFromBrackets(stateTaxable, DE_RULES_2025.brackets[filingStatus]);\n".toList

/-- Content matched only by the loose fallback pattern. -/
def c6loose : List Char :=
  "const taxBeforeCredits = calculateTaxFromBrackets(amt, DE_RULES_2025.brackets[filingStatus]);\n".toList

/-- Unrelated surrounding text for the frame property. -/
def c7pre : List Char := "// DE state computation\n".toList

/-- Unrelated trailing text for the frame property. -/
def c7suf : List Char := "export default compute;\n".toList

/-- A 77-line file whose diagnostic call starts on line 76 (the last line of
the `self-employment` range) and terminates on line 77 (in no range). -/
def c9input : List (List Char) :=
  List.replicate 75 "x\n".toList ++
    ["pushWarning(a, \x27SE-W-1\x27,\n".toList, "b);\n".toList]

/-- The output of one diagnostic run over `c9input`: the phase resolved from
the start line 76 is inserted. -/
def c9output : List (List Char) :=
  List.replicate 75 "x\n".toList ++
    ["pushWarning(a, \x27SE-W-1\x27, \x7b phase: \x27self-employment\x27 \x7d,\n".toList,
     "b);\n".toList]


/-! ## Helper lemmas -/

/-- The first-match loop of `get_phase_for_line` coincides with `List.find?`
over the range table. -/
theorem phaseLookup_eq_find? (L : List (Nat × Nat × List Char)) (n : Nat) :
    phaseLookup L n =
      (L.find? (fun t => decide (t.1 ≤ n ∧ n ≤ t.2.1))).map (fun t => t.2.2) := by
  induction L with
  | nil => rfl
  | cons hd tl ih =>
    obtain ⟨s, e, p⟩ := hd
    by_cases h : s ≤ n ∧ n ≤ e
    · simp [phaseLookup, List.find?, h]
    · simp [phaseLookup, List.find?, h, ih]

/-- A successful strict argument match certifies the captured run's
suffix. -/
theorem matchArgs_strict_suffix (st run rest v : List Char)
    (h : matchArgs true st run rest = some v) : strictSuffixOk v = true := by
  unfold matchArgs at h
  split at h
  · exact absurd h (by simp)
  · split at h
    · exact absurd h (by simp)
    · split at h
      · exact absurd h (by simp)
      · split at h
        · split at h
          · simp_all
          · exact absurd h (by simp)
        · exact absurd h (by simp)

/-- A successful strict anchored match certifies the capture's suffix. -/
theorem matchCallAt_strict_suffix (st l v : List Char)
    (h : matchCallAt true st l = some v) : strictSuffixOk v = true := by
  unfold matchCallAt at h
  cases hp : matchPre callLit l with
  | none => rw [hp] at h; exact absurd h (by simp)
  | some r1 =>
    rw [hp] at h
    exact matchArgs_strict_suffix st _ _ v h

/-- Every binding captured by the strict search ends in the constrained
suffix. -/
theorem searchCall_strict_suffix (st : List Char) :
    ∀ (c : List Char) (v : List Char),
      searchCall true st c = some v → strictSuffixOk v = true := by
  intro c
  induction c with
  | nil => intro v h; exact absurd h (by simp [searchCall])
  | cons a cs ih =>
    intro v h
    unfold searchCall at h
    cases hm : matchCallAt true st (a :: cs) with
    | some w =>
      rw [hm] at h
      injection h with h2
      subst h2
      exact matchCallAt_strict_suffix st _ _ hm
    | none =>
      rw [hm] at h
      exact ih v h

/-- Unfolding of the strict suffix certificate into the two admissible
suffixes. -/
theorem strictSuffixOk_ends (v : List Char) (h : strictSuffixOk v = true) :
    endsWithL "Taxable".toList v = true ∨ endsWithL "TaxableIncome".toList v = true := by
  unfold strictSuffixOk at h
  simp only [Bool.or_eq_true, Bool.and_eq_true] at h
  rcases h with ⟨h1, _⟩ | ⟨h1, _⟩
  · exact Or.inl h1
  · exact Or.inr h1

/-- Every span yielded by the extraction loop has at least two lines:
a span opened while scanning already holds its trigger line, and the
terminator test is only applied to later lines. -/
theorem extractLoop_span_len :
    ∀ (rest : List (List Char)) (i : Nat) (b : Bool) (acc : List (List Char)) (s : Nat),
      (b = true → 1 ≤ acc.length) →
      ∀ sp ∈ extractLoop i b acc s rest, 2 ≤ sp.2.length := by
  intro rest
  induction rest with
  | nil => intro i b acc s hb sp hsp; simp [extractLoop] at hsp
  | cons line rest ih =>
    intro i b acc s hb sp hsp
    unfold extractLoop at hsp
    by_cases ht : isTrigger line = true
    · rw [if_pos ht] at hsp
      exact ih _ _ _ _ (fun _ => by simp) sp hsp
    · rw [if_neg ht] at hsp
      cases b with
      | false =>
        simp only [Bool.false_eq_true, if_false] at hsp
        exact ih (i + 1) false acc s (fun h => Bool.noConfusion h) sp hsp
      | true =>
        simp only [if_true] at hsp
        by_cases hterm : containsSub termLit line = true
        · rw [if_pos hterm] at hsp
          rcases List.mem_cons.mp hsp with rfl | h2
          · have h1 := hb rfl
            simp only [List.length_append, List.length_cons, List.length_nil]
            omega
          · exact ih (i + 1) false [] s (fun h => Bool.noConfusion h) sp h2
        · rw [if_neg hterm] at hsp
          exact ih (i + 1) true (acc ++ [line]) s (fun _ => by simp) sp hsp

/-- Equation lemma: the batch loop on a state whose path is absent. -/
theorem runBatchAux_cons_none (fs : List Char → Option (List Char))
    (st : List Char) (rest : List (List Char)) (h : fs (statePath st) = none) :
    runBatchAux fs (st :: rest) =
      (st, FixOutcome.missingFile) :: runBatchAux fs rest := by
  conv_lhs => unfold runBatchAux
  simp only [h]

/-- Equation lemma: the batch loop on a state whose path holds `content`;
the store is updated at that state's own path exactly when the outcome is
`patched`. -/
theorem runBatchAux_cons_some (fs : List Char → Option (List Char))
    (st : List Char) (rest : List (List Char)) (content : List Char)
    (o : FixOutcome) (nc : List Char)
    (h : fs (statePath st) = some content) (hf : fixFile st content = (o, nc)) :
    runBatchAux fs (st :: rest) =
      (st, o) :: runBatchAux
        (if o = FixOutcome.patched then updateFs fs (statePath st) nc else fs) rest := by
  conv_lhs => unfold runBatchAux
  simp only [h, hf]
  cases o <;> simp

/-- The batch loop produces exactly one outcome per configured state, in
order. -/
theorem runBatchAux_fst :
    ∀ (l : List (List Char)) (fs : List Char → Option (List Char)),
      (runBatchAux fs l).map Prod.fst = l := by
  intro l
  induction l with
  | nil => intro fs; rfl
  | cons st rest ih =>
    intro fs
    cases hfs : fs (statePath st) with
    | none => rw [runBatchAux_cons_none fs st rest hfs]; simp [ih]
    | some content =>
      rcases hfix : fixFile st content with ⟨o, nc⟩
      rw [runBatchAux_cons_some fs st rest content o nc hfs hfix]
      simp [ih]

/-- A state whose path is absent from the store is reported as
`missingFile`, regardless of what earlier states did: the loop only ever
writes a path it has just read successfully. -/
theorem runBatchAux_missing :
    ∀ (l : List (List Char)) (fs : List Char → Option (List Char)) (st : List Char),
      st ∈ l → fs (statePath st) = none →
      (st, FixOutcome.missingFile) ∈ runBatchAux fs l := by
  intro l
  induction l with
  | nil => intro fs st h _; cases h
  | cons hd rest ih =>
    intro fs st hmem hnone
    rcases List.mem_cons.mp hmem with rfl | hmem'
    · rw [runBatchAux_cons_none fs st rest hnone]
      exact List.mem_cons_self _ _
    · cases hfs : fs (statePath hd) with
      | none =>
        rw [runBatchAux_cons_none fs hd rest hfs]
        exact List.mem_cons_of_mem _ (ih fs st hmem' hnone)
      | some content =>
        rcases hfix : fixFile hd content with ⟨o, nc⟩
        rw [runBatchAux_cons_some fs hd rest content o nc hfs hfix]
        refine List.mem_cons_of_mem _ (ih _ st hmem' ?_)
        by_cases ho : o = FixOutcome.patched
        · rw [if_pos ho]
          unfold updateFs
          by_cases hp : statePath st = statePath hd
          · rw [hp] at hnone
            rw [hnone] at hfs
            exact absurd hfs (by simp)
          · simp [hp, hnone]
        · rw [if_neg ho]
          exact hnone

/-! ## Claim theorems -/

/-- Claim C1 (amended): on a file containing the exact prior form
`const taxBeforeCredits = calculateTaxFromBrackets(<var>, DE_RULES_2025.brackets[filingStatus]);`,
the rewrite produces the intermediate statement
`const fullBrackets = convertToFullBrackets(DE_RULES_2025.brackets[filingStatus]);`
followed by `const taxBeforeCredits = calculateTaxFromBrackets(<var>, fullBrackets)`
with no trailing semicolon (the matched `;` is consumed by the substitution
and not re-emitted by the replacement), and running the substitution a
second time on the rewritten text finds no matching prior form, reports
NotFound, and leaves the text unchanged. -/
theorem C1_amended :
    (fixFile "DE".toList c1input).1 = FixOutcome.patched
  ∧ (fixFile "DE".toList c1input).2 = c1expected
  ∧ (fixFile "DE".toList c1expected).1 = FixOutcome.notFound
  ∧ (fixFile "DE".toList c1expected).2 = c1expected := by decide

/-- Claim C1, counterexample to the claim as stated: the rewritten call is
not `const taxBeforeCredits = calculateTaxFromBrackets(<var>, fullBrackets);`
— the output nowhere contains `fullBrackets);`; the call ends in
`fullBrackets)` directly followed by the original newline. -/
theorem C1_counterexample :
    containsSub ("fullBrackets);".toList) (fixFile "DE".toList c1input).2 = false
  ∧ containsSub ("fullBrackets)\n".toList) (fixFile "DE".toList c1input).2 = true := by decide

/-- Claim C2: for the single-line span `foo(x, 'CODE-W-001');` with no
brace-delimited options structure, no existing phase field, and resolved
label `agi` (line 300), the rewriter inserts a new single-field structure
right after the short code token, giving exactly
`foo(x, 'CODE-W-001', { phase: 'agi' });`; with a brace-delimited trailing
structure the field is instead inserted immediately before that structure's
closing brace; with neither anchor the span is returned unchanged. -/
theorem C2_insertion :
    add_phase_to_diagnostic ("foo(x, \x27CODE-W-001\x27);".toList) 300
      = "foo(x, \x27CODE-W-001\x27, \x7b phase: \x27agi\x27 \x7d);".toList
  ∧ add_phase_to_diagnostic ("foo(x, \x27CODE-W-001\x27, \x7b line: 5 \x7d);".toList) 300
      = "foo(x, \x27CODE-W-001\x27, \x7b line: 5 , phase: \x27agi\x27\x7d);".toList
  ∧ add_phase_to_diagnostic ("foo(x, \x27none\x27);".toList) 300
      = "foo(x, \x27none\x27);".toList := by decide

/-- Claim C3 (amended): the field-insertion rewriter returns a span
unchanged whenever the `phase:` marker is already present anywhere in it,
so a second diagnostic run over patched output makes no further changes
(shown on a concrete patched file); and the bracket-substitution rewriter
makes zero byte changes on a second run over already-patched content when
the first run replaced every occurrence of the prior form — in particular
on the canonical single-occurrence file, where the second run reports
NotFound.  (On files with prior forms under distinct bindings a second run
can patch a remaining occurrence; see the counterexample.) -/
theorem C3_amended :
    (∀ (s : List Char) (n : Nat), containsSub phaseLit s = true →
        add_phase_to_diagnostic s n = s)
  ∧ processLines (processLines c9input) = processLines c9input
  ∧ (fixFile "DE".toList ((fixFile "DE".toList c1input).2)).1 = FixOutcome.notFound
  ∧ (fixFile "DE".toList ((fixFile "DE".toList c1input).2)).2
      = (fixFile "DE".toList c1input).2 := by
  refine ⟨?_, by decide, by decide, by decide⟩
  intro s n h
  simp [add_phase_to_diagnostic, h]

/-- Claim C3, witness: the amended claim's first conjunct at a concrete
span that already carries a phase field. -/
theorem C3_witness :
    add_phase_to_diagnostic ("pushWarning(x, \x7b phase: \x27agi\x27 \x7d);\n".toList) 300
      = "pushWarning(x, \x7b phase: \x27agi\x27 \x7d);\n".toList :=
  C3_amended.1 ("pushWarning(x, \x7b phase: \x27agi\x27 \x7d);\n".toList) 300 (by decide)

/-- Claim C3, counterexample to the claim as stated: on a file with two
occurrences of the prior form under distinct bindings (`aTaxable`, matched
by the strict pattern, and `b`, matched only by the loose one), the first
run patches only the first occurrence, and a second run changes the file
again — the pipeline is not idempotent for every input file. -/
theorem C3_counterexample :
    (fixFile "DE".toList c3input).1 = FixOutcome.patched
  ∧ (fixFile "DE".toList ((fixFile "DE".toList c3input).2)).1 = FixOutcome.patched
  ∧ (fixFile "DE".toList ((fixFile "DE".toList c3input).2)).2
      ≠ (fixFile "DE".toList c3input).2 := by decide

/-- Claim C4: on a truncated file whose diagnostic call is opened but never
terminated, the extractor yields no span at all — but the main loop also
drops the accumulated lines of the open span from the written output, so
the written file is empty rather than byte-identical outside rewritten
spans. -/
theorem C4_truncated_span_dropped :
    processLines c4input = [] ∧ extractSpans c4input = [] := by decide

/-- Claim C5: `get_phase_for_line` returns the label of the first range in
the configured ordered table whose closed interval contains the line
number (it coincides with `List.find?` over `PHASE_MAPPINGS`), returns
`none` when no range contains it, and on line 1100 — contained in both the
`credits` range (1000-1100) and the `input-validation` range (1100-1150) —
the earlier `credits` entry wins.  Determinism is immediate: the resolver
is a pure function of the line number and the fixed table. -/
theorem C5_context_resolution :
    (∀ n, get_phase_for_line n =
       (PHASE_MAPPINGS.find? (fun t => decide (t.1 ≤ n ∧ n ≤ t.2.1))).map
         (fun t => t.2.2))
  ∧ (∀ n, (∀ t ∈ PHASE_MAPPINGS, ¬ (t.1 ≤ n ∧ n ≤ t.2.1)) →
       get_phase_for_line n = none)
  ∧ get_phase_for_line 1100 = some ("credits".toList)
  ∧ ((1000 ≤ 1100 ∧ 1100 ≤ 1100) ∧ (1100 ≤ 1100 ∧ 1100 ≤ 1150)) := by
  refine ⟨fun n => phaseLookup_eq_find? PHASE_MAPPINGS n, ?_, by decide, by decide⟩
  intro n h
  have e1 : PHASE_MAPPINGS.find? (fun t => decide (t.1 ≤ n ∧ n ≤ t.2.1)) = none := by
    rw [List.find?_eq_none]
    intro x hx
    simpa using h x hx
  unfold get_phase_for_line
  rw [phaseLookup_eq_find?, e1]
  rfl

/-- Claim C5, witness: no-range lines resolve to no label. -/
theorem C5_witness : get_phase_for_line 2000 = none :=
  C5_context_resolution.2.1 2000 (by decide)

/-- Claim C6: the matcher tries the strict pattern first — every binding it
captures ends in `Taxable` or `TaxableIncome` — and only if the strict
pattern finds no match does it retry exactly once with the loose pattern
accepting any identifier; the binding used is the one captured by whichever
pattern matched first, and there is no further fallback (when both fail,
the result is no binding at all). -/
theorem C6_fallback_chain :
    (∀ (st c v : List Char), searchCall true st c = some v → findBinding st c = some v)
  ∧ (∀ (st c : List Char), searchCall true st c = none →
       findBinding st c = searchCall false st c)
  ∧ (∀ (st c v : List Char), searchCall true st c = some v →
       endsWithL "Taxable".toList v = true ∨ endsWithL "TaxableIncome".toList v = true)
  ∧ findBinding "DE".toList c6strict = some ("stateTaxable".toList)
  ∧ searchCall true "DE".toList c6loose = none
  ∧ findBinding "DE".toList c6loose = some ("amt".toList)
  ∧ findBinding "DE".toList ("no call here".toList) = none := by
  refine ⟨?_, ?_, ?_, by decide, by decide, by decide, by decide⟩
  · intro st c v h
    unfold findBinding
    rw [h]
  · intro st c h
    unfold findBinding
    rw [h]
  · intro st c v h
    exact strictSuffixOk_ends v (searchCall_strict_suffix st c v h)

/-- Claim C6, witness: the strict capture on the canonical content ends in
`Taxable`. -/
theorem C6_witness :
    endsWithL ("Taxable".toList) ("stateTaxable".toList) = true
  ∨ endsWithL ("TaxableIncome".toList) ("stateTaxable".toList) = true :=
  C6_fallback_chain.2.2.1 "DE".toList c6strict ("stateTaxable".toList) (by decide)

/-- Claim C7 (amended): for the bracket-substitution script, either the
content is left byte-identical (any non-`patched` outcome) or a changed
text is written (`patched` always changes the content), and the concrete
patched output differs from the input only inside the replaced span region
(the surrounding prefix and suffix are preserved byte-for-byte); the
diagnostic script, in contrast, opens the file for writing unconditionally,
even on a run in which no span was patched and the written text equals the
input. -/
theorem C7_amended :
    (∀ (st c : List Char), (fixFile st c).1 ≠ FixOutcome.patched → (fixFile st c).2 = c)
  ∧ (∀ (st c : List Char), (fixFile st c).1 = FixOutcome.patched → (fixFile st c).2 ≠ c)
  ∧ (fixFile "DE".toList (c7pre ++ c1input ++ c7suf)).1 = FixOutcome.patched
  ∧ (fixFile "DE".toList (c7pre ++ c1input ++ c7suf)).2 = c7pre ++ c1expected ++ c7suf
  ∧ diagnosticRun ["const x = 1;\n".toList] = (["const x = 1;\n".toList], true) := by
  refine ⟨?_, ?_, by decide, by decide, by decide⟩
  · intro st c h
    unfold fixFile at h ⊢
    cases hf : findBinding st c with
    | none => rfl
    | some var =>
      rw [hf] at h
      by_cases he : replaceAllOld var st c = c
      · simp [he]
      · simp [he] at h
  · intro st c h
    unfold fixFile at h ⊢
    cases hf : findBinding st c with
    | none =>
      rw [hf] at h
      simp at h
    | some var =>
      rw [hf] at h
      by_cases he : replaceAllOld var st c = c
      · simp [he] at h
      · simp [he]

/-- Claim C7, witness: a content with no match is left unchanged. -/
theorem C7_witness : (fixFile "DE".toList ("x".toList)).2 = "x".toList :=
  C7_amended.1 "DE".toList ("x".toList) (by decide)

/-- Claim C7, counterexample to the claim as stated: the diagnostic driver
writes the file back on a run in which no span was patched and the content
did not change — write-back is unconditional there, not gated on a
successful patch. -/
theorem C7_counterexample :
    (diagnosticRun ["foo(1);\n".toList]).2 = true
  ∧ (diagnosticRun ["foo(1);\n".toList]).1 = ["foo(1);\n".toList] := by decide

/-- Claim C8: every configured state is attempted and classified in order
(one outcome per state, regardless of earlier outcomes), and every state
whose resolved path is absent from the store is reported `missingFile` —
earlier units' writes cannot affect it, because the loop writes only to a
path it has just read successfully. -/
theorem C8_missing_file_isolation :
    (∀ fs, (runBatch fs).map Prod.fst = states_to_fix)
  ∧ (∀ fs st, st ∈ states_to_fix → fs (statePath st) = none →
       (st, FixOutcome.missingFile) ∈ runBatch fs) :=
  ⟨fun fs => runBatchAux_fst states_to_fix fs,
   fun fs st h1 h2 => runBatchAux_missing states_to_fix fs st h1 h2⟩

/-- Claim C8, witness: with an empty store, `DE` is reported missing. -/
theorem C8_witness :
    ("DE".toList, FixOutcome.missingFile) ∈ runBatch (fun _ => none) :=
  C8_missing_file_isolation.2 (fun _ => none) ("DE".toList) (by decide) rfl

/-- Claim C9: a multi-line diagnostic call starting on line 76 (the last
line of the `self-employment` range) and terminating on line 77 (contained
in no configured range) receives the label resolved from its start line:
the inserted field is `phase: 'self-employment'`, even though the
terminator's line would resolve to no label at all. -/
theorem C9_phase_from_start_line :
    processLines c9input = c9output
  ∧ get_phase_for_line 76 = some ("self-employment".toList)
  ∧ get_phase_for_line 77 = none := by decide

/-- Claim C10: every span the extractor yields covers at least two physical
lines — the terminator is never tested on the span's opening trigger line —
and a call that opens and closes on a single line yields a span extended
through the next line containing `);`. -/
theorem C10_two_line_spans :
    (∀ (l : List (List Char)) (sp : Nat × List (List Char)),
        sp ∈ extractSpans l → 2 ≤ sp.2.length)
  ∧ extractSpans
        ["pushWarning(x, \x27A-W-1\x27);\n".toList, "a);\n".toList, "b\n".toList]
      = [(1, ["pushWarning(x, \x27A-W-1\x27);\n".toList, "a);\n".toList])] := by
  refine ⟨?_, by decide⟩
  intro l sp hsp
  exact extractLoop_span_len l 1 false [] 0 (fun h => Bool.noConfusion h) sp hsp

/-- Claim C10, witness: the concrete two-line span satisfies the bound. -/
theorem C10_witness :
    2 ≤ (((1 : Nat),
          ["pushWarning(x, \x27A-W-1\x27);\n".toList, "a);\n".toList]) :
          Nat × List (List Char)).2.length :=
  C10_two_line_spans.1
    ["pushWarning(x, \x27A-W-1\x27);\n".toList, "a);\n".toList, "b\n".toList]
    ((1 : Nat), ["pushWarning(x, \x27A-W-1\x27);\n".toList, "a);\n".toList])
    (by decide)
